import Mathlib

/-!
Verification of the per-key token-bucket rate-limiting middleware of the
protobuf-framework repository (`middleware/ratelimit.go`, the metrics hook in
`middleware` and the error package), against its natural-language specification.

The Go code is shallowly embedded: Go structs become Lean structures, the
`map[string]*rate.Limiter` becomes an association list with explicit state
passing, and the `golang.org/x/time/rate` token bucket (an external library
whose source is not part of this repository) is modelled from the spec's
description of the algorithm. Time and token counts are rationals (`ℚ`),
since the spec prescribes continuous accumulation at `requestsPerSecond`
tokens per second with at least millisecond resolution.
-/

namespace ProtobufFramework

/-- Modelled from the spec: the token bucket of `golang.org/x/time/rate`
(`rate.Limiter`), which is an external dependency, not source of this
repository. Spec §4.3: "a refill rate (tokens/second) and a maximum burst
capacity (bucket size). Mutable internal state: current token count and
last-refill timestamp." -/
structure Limiter where
  limit : ℚ
  burst : ℤ
  tokens : ℚ
  last : ℚ
  deriving Repr, DecidableEq

/-- Modelled from the spec: a freshly created limiter starts with a full
bucket (spec P1: "starting full"), with the given rate and burst. -/
def newLimiter (r : ℚ) (b : ℤ) (now : ℚ) : Limiter :=
  { limit := r, burst := b, tokens := (b : ℚ), last := now }

/-- Modelled from the spec §4.3: "refill amount for an elapsed interval `Δt`
is `Δt * requestsPerSecond` tokens, added to the current count and clamped
to `burstSize`". -/
def Limiter.availableTokens (l : Limiter) (now : ℚ) : ℚ :=
  min (l.burst : ℚ) (l.tokens + (now - l.last) * l.limit)

/-- Modelled from the spec §4.3: `TryAcquire() -> bool` "returns false exactly
when no token is available at call time. Side effect: on success, decrements
available tokens by one and updates last-refill timestamp." This is the
behaviour of `rate.Limiter.Allow()`. -/
def Limiter.tryAcquire (l : Limiter) (now : ℚ) : Bool × Limiter :=
  let tok := l.availableTokens now
  if 1 ≤ tok then
    (true, { l with tokens := tok - 1, last := now })
  else
    (false, l)

/-- The limiter state after a successful `TryAcquire` at `now`: the clamped
refilled count minus the consumed token, and `now` as the last-refill
timestamp. -/
def Limiter.consumeOne (l : Limiter) (now : ℚ) : Limiter :=
  { l with tokens := l.availableTokens now - 1, last := now }

/-- Results of `n` consecutive `TryAcquire` calls at one instant `now`,
threading the limiter state. -/
def acquireResults (l : Limiter) (now : ℚ) : ℕ → List Bool
  | 0 => []
  | n + 1 =>
    let r := l.tryAcquire now
    r.1 :: acquireResults r.2 now n

/-- `grpc.UnaryServerInfo`: only the full method name is relevant to this
middleware. -/
structure CallInfo where
  fullMethod : String
  deriving Repr, DecidableEq

/-- `DefaultKeyExtractor` from `middleware/ratelimit.go`: always returns the
constant key "global". -/
def DefaultKeyExtractor (_ : CallInfo) : String :=
  "global"

/-- `MethodKeyExtractor` from `middleware/ratelimit.go`: returns the gRPC full
method name. -/
def MethodKeyExtractor (info : CallInfo) : String :=
  info.fullMethod

/-- `RateLimitConfig` from `middleware/ratelimit.go`. In Go the key extractor
is a function field that may be `nil`; this is modelled with `Option`. -/
structure RateLimitConfig where
  RequestsPerSecond : ℤ
  BurstSize : ℤ
  KeyExtractor : Option (CallInfo → String)

/-- `RateLimiter` from `middleware/ratelimit.go`: the `map[string]*rate.Limiter`
is modelled as an association list, the mutex is dropped (state passing is
explicit and sequential). -/
structure RateLimiter where
  limiters : List (String × Limiter)
  config : RateLimitConfig

/-- `NewRateLimiter` from `middleware/ratelimit.go`: substitutes defaults for a
nil key extractor, a non-positive `RequestsPerSecond` (default 100) and a
non-positive `BurstSize` (default `2 * RequestsPerSecond`, computed after the
rate default), then starts with an empty limiter map. -/
def NewRateLimiter (config : RateLimitConfig) : RateLimiter :=
  let c1 :=
    match config.KeyExtractor with
    | none => { config with KeyExtractor := some DefaultKeyExtractor }
    | some _ => config
  let c2 :=
    if c1.RequestsPerSecond ≤ 0 then
      { c1 with RequestsPerSecond := 100 }
    else c1
  let c3 :=
    if c2.BurstSize ≤ 0 then
      { c2 with BurstSize := c2.RequestsPerSecond * 2 }
    else c2
  { limiters := [], config := c3 }

/-- `getLimiter` from `middleware/ratelimit.go`: return the existing limiter
for `key` if present, otherwise construct one from the configured rate and
burst (`rate.NewLimiter(rate.Limit(RequestsPerSecond), BurstSize)`) and store
it. The double-checked locking collapses to a single lookup in this
sequential model. The third component records whether a limiter was
constructed by this call. -/
def RateLimiter.getLimiter (rl : RateLimiter) (key : String) (now : ℚ) :
    Limiter × RateLimiter × Bool :=
  match rl.limiters.lookup key with
  | some l => (l, rl, false)
  | none =>
    let l := newLimiter (rl.config.RequestsPerSecond : ℚ) rl.config.BurstSize now
    (l, { rl with limiters := (key, l) :: rl.limiters }, true)

/-- Replace the entry for `key` (mirrors the in-place mutation of the shared
`*rate.Limiter` that `Allow()` performs in Go). -/
def updateLimiter : List (String × Limiter) → String → Limiter → List (String × Limiter)
  | [], _, _ => []
  | (k, v) :: rest, key, l =>
    if k = key then (key, l) :: rest else (k, v) :: updateLimiter rest key l

/-- `CodeErrEntity` from the error package: machine-readable code, HTTP status,
gRPC code and message. -/
structure CodeErrEntity where
  Code : String
  Status : ℤ
  GrpcCode : String
  Message : String
  deriving Repr, DecidableEq

/-- The `ErrResourceExhausted` entry of `codeErrMap` in the error package. -/
def errResourceExhaustedEntity : CodeErrEntity :=
  { Code := "ERR429P08", Status := 429, GrpcCode := "ResourceExhausted",
    Message := "resource exhausted" }

/-- The custom message the interceptor formats:
`fmt.Sprintf("Rate limit exceeded. Maximum %d requests per second allowed.", n)`. -/
def rateLimitExceededMessage (n : ℤ) : String :=
  "Rate limit exceeded. Maximum " ++ toString n ++ " requests per second allowed."

/-- `CodeErr.WithMessage` from the error package, applied to
`ErrResourceExhausted` with a non-empty format string: the resulting error
message is `fmt.Sprintf("%s: %s", baseMessage, customMessage)`, i.e. the base
message "resource exhausted" followed by ": " and the custom message. -/
def resourceExhaustedWithMessage (custom : String) : CodeErrEntity :=
  { errResourceExhaustedEntity with
    Message := errResourceExhaustedEntity.Message ++ ": " ++ custom }

/-- The value returned by the Go interceptor: either the rejection error
(`nil` response plus the resource-exhausted error) or the downstream
handler's response/error pair, verbatim. -/
inductive InterceptDecision (α ε : Type) where
  | rejected (err : CodeErrEntity)
  | forwarded (resp : Option α) (err : Option ε)
  deriving DecidableEq

/-- Outcome of one interceptor invocation: the returned decision, whether the
downstream handler was invoked, the `RecordRateLimitExceeded` counter
increments (labelled method, key) emitted, and the registry state after the
call. -/
structure InterceptOutcome (α ε : Type) where
  decision : InterceptDecision α ε
  handlerInvoked : Bool
  metricEvents : List (String × String)
  state : RateLimiter

/-- The key the interceptor derives for a call:
`rateLimiter.config.KeyExtractor(ctx, info)`. A nil extractor would panic in
Go and is unreachable through `NewRateLimiter`; it is modelled by falling
back to `DefaultKeyExtractor`. -/
def RateLimiter.extractKey (rl : RateLimiter) (info : CallInfo) : String :=
  (rl.config.KeyExtractor.getD DefaultKeyExtractor) info

/-- `RateLimitInterceptor` from `middleware/ratelimit.go`: extract the key,
get (or create) the limiter for it, and either reject (no handler call, one
metric increment, resource-exhausted error mentioning the configured
requests-per-second) or forward to the handler and return its result
unchanged. The downstream handler is a pure response/error pair `h`. -/
def RateLimitInterceptor {α ε : Type} (rl : RateLimiter) (now : ℚ)
    (info : CallInfo) (h : Option α × Option ε) : InterceptOutcome α ε :=
  let key := rl.extractKey info
  let g := rl.getLimiter key now
  let r := g.1.tryAcquire now
  if r.1 then
    { decision := .forwarded h.1 h.2,
      handlerInvoked := true,
      metricEvents := [],
      state := { g.2.1 with limiters := updateLimiter g.2.1.limiters key r.2 } }
  else
    { decision := .rejected (resourceExhaustedWithMessage
        (rateLimitExceededMessage rl.config.RequestsPerSecond)),
      handlerInvoked := false,
      metricEvents := [(info.fullMethod, key)],
      state := g.2.1 }

/-- Rate-limiting fields of `Config` from the config package. -/
structure Config where
  RateLimitEnabled : Bool
  RateLimitRequestsPerSec : ℤ
  RateLimitBurstSize : ℤ
  RateLimitStrategy : String

/-- The interceptors appearing in the gRPC server chain built in `main.go`.
Only the rate-limit interceptor carries state relevant to this development;
the others are opaque tags. -/
inductive Interceptor where
  | requestID
  | metrics
  | rateLimit (rl : RateLimiter)
  | logging

/-- Whether a chain entry is the rate-limit interceptor. -/
def Interceptor.isRateLimit : Interceptor → Bool
  | .rateLimit _ => true
  | _ => false

/-- The key that a rate-limit chain entry would extract for a call
(`none` for the other interceptors). -/
def Interceptor.extractedKey : Interceptor → CallInfo → Option String
  | .rateLimit rl, info => some ((rl.config.KeyExtractor.getD DefaultKeyExtractor) info)
  | _, _ => none

/-- `NewGlobalRateLimitInterceptor` from `middleware/ratelimit.go`. -/
def NewGlobalRateLimitInterceptor (requestsPerSecond burstSize : ℤ) : Interceptor :=
  .rateLimit (NewRateLimiter
    { RequestsPerSecond := requestsPerSecond, BurstSize := burstSize,
      KeyExtractor := some DefaultKeyExtractor })

/-- `NewPerMethodRateLimitInterceptor` from `middleware/ratelimit.go`. -/
def NewPerMethodRateLimitInterceptor (requestsPerSecond burstSize : ℤ) : Interceptor :=
  .rateLimit (NewRateLimiter
    { RequestsPerSecond := requestsPerSecond, BurstSize := burstSize,
      KeyExtractor := some MethodKeyExtractor })

/-- `NewRateLimitInterceptors` from `middleware/ratelimit.go`: empty when rate
limiting is disabled, per-method when the strategy string is exactly
"per-method", global otherwise. -/
def NewRateLimitInterceptors (cfg : Config) : List Interceptor :=
  if !cfg.RateLimitEnabled then []
  else if cfg.RateLimitStrategy = "per-method" then
    [NewPerMethodRateLimitInterceptor cfg.RateLimitRequestsPerSec cfg.RateLimitBurstSize]
  else
    [NewGlobalRateLimitInterceptor cfg.RateLimitRequestsPerSec cfg.RateLimitBurstSize]

/-- The interceptor chain assembled in `runGRPCServer` in `main.go`:
request-id and metrics interceptors, then the rate-limit interceptor (chosen
by strategy) only when `RateLimitEnabled`, then the logging interceptor. -/
def runGRPCServerInterceptors (cfg : Config) : List Interceptor :=
  let rateLimitInterceptor :=
    if cfg.RateLimitStrategy = "per-method" then
      NewPerMethodRateLimitInterceptor cfg.RateLimitRequestsPerSec cfg.RateLimitBurstSize
    else
      NewGlobalRateLimitInterceptor cfg.RateLimitRequestsPerSec cfg.RateLimitBurstSize
  let base := [Interceptor.requestID, Interceptor.metrics]
  let withRate := if cfg.RateLimitEnabled then base ++ [rateLimitInterceptor] else base
  withRate ++ [Interceptor.logging]

/-- A sequence of `getLimiter` calls on one registry, returning the final
state and, per call, the key together with whether that call constructed a
new limiter. -/
def runGetLimiters (rl : RateLimiter) (now : ℚ) : List String → RateLimiter × List (String × Bool)
  | [] => (rl, [])
  | k :: ks =>
    let g := rl.getLimiter k now
    let rest := runGetLimiters g.2.1 now ks
    (rest.1, (k, g.2.2) :: rest.2)

/-- Number of calls in a `runGetLimiters` trace that constructed a limiter
for key `k`. -/
def creationCount (k : String) (evs : List (String × Bool)) : ℕ :=
  (evs.filter (fun e => e.1 == k && e.2)).length

section Theorems

/-- With `last = now` the refill is zero, so the available tokens are the
stored count (clamped below the burst). -/
theorem availableTokens_at_last (l : Limiter) (m : ℕ) (htok : l.tokens = (m : ℚ))
    (hle : (m : ℤ) ≤ l.burst) : l.availableTokens l.last = (m : ℚ) := by
  unfold Limiter.availableTokens
  rw [htok, sub_self, zero_mul, add_zero]
  exact min_eq_right (by exact_mod_cast hle)

/-- Draining a limiter whose stored count is the natural number `m` (at most
the burst) at one instant: the first `m` calls succeed and every later call
fails. -/
theorem acquireResults_at_last (n : ℕ) : ∀ (m : ℕ) (l : Limiter),
    l.tokens = (m : ℚ) → (m : ℤ) ≤ l.burst →
    acquireResults l l.last n =
      List.replicate (min n m) true ++ List.replicate (n - m) false := by
  induction n with
  | zero =>
    intro m l _ _
    simp [acquireResults]
  | succ n ih =>
    intro m l htok hle
    have havail : l.availableTokens l.last = (m : ℚ) := availableTokens_at_last l m htok hle
    match m with
    | 0 =>
      have hno : ¬ (1 : ℚ) ≤ l.availableTokens l.last := by
        rw [havail]; norm_num
      have hstep : l.tryAcquire l.last = (false, l) := by
        simp [Limiter.tryAcquire, hno]
      simp only [acquireResults, hstep]
      rw [ih 0 l htok (by simpa using hle)]
      simp [List.replicate_succ]
    | m' + 1 =>
      have hyes : (1 : ℚ) ≤ l.availableTokens l.last := by
        rw [havail]; exact_mod_cast Nat.one_le_iff_ne_zero.mpr (Nat.succ_ne_zero m')
      have hstep : l.tryAcquire l.last =
          (true, { l with tokens := l.availableTokens l.last - 1, last := l.last }) := by
        simp [Limiter.tryAcquire, hyes]
      simp only [acquireResults, hstep]
      have htok2 : ({ l with tokens := l.availableTokens l.last - 1, last := l.last } : Limiter).tokens
          = (m' : ℚ) := by
        simp [havail]
      have hle2 : (m' : ℤ) ≤ ({ l with tokens := l.availableTokens l.last - 1, last := l.last } : Limiter).burst := by
        simp only []
        omega
      have := ih m' { l with tokens := l.availableTokens l.last - 1, last := l.last } htok2 hle2
      simp only [] at this
      rw [this]
      have h1 : min (n + 1) (m' + 1) = min n m' + 1 := by omega
      have h2 : n + 1 - (m' + 1) = n - m' := by omega
      rw [h1, h2, List.replicate_succ]
      rfl

/-- C1: a limiter produced by the registry with positive burst size `B` and
positive rate `R`, starting with a full bucket, admits exactly `B`
consecutive `TryAcquire` calls at one instant and rejects the `(B+1)`-th. -/
theorem capacity_bound (rl : RateLimiter) (k : String) (now : ℚ) (B : ℕ)
    (hfresh : rl.limiters.lookup k = none)
    (hR : 0 < rl.config.RequestsPerSecond)
    (hB : rl.config.BurstSize = (B : ℤ)) (hBpos : 0 < B) :
    acquireResults (rl.getLimiter k now).1 now (B + 1) =
      List.replicate B true ++ [false] := by
  have hget : (rl.getLimiter k now).1 =
      newLimiter (rl.config.RequestsPerSecond : ℚ) rl.config.BurstSize now := by
    simp [RateLimiter.getLimiter, hfresh]
  rw [hget]
  have hres := acquireResults_at_last (B + 1) B
      (newLimiter (rl.config.RequestsPerSecond : ℚ) rl.config.BurstSize now)
      (by simp [newLimiter, hB]) (by simp [newLimiter, hB])
  have hlast : (newLimiter (rl.config.RequestsPerSecond : ℚ) rl.config.BurstSize now).last = now := rfl
  rw [hlast] at hres
  rw [hres]
  have h1 : min (B + 1) B = B := by omega
  have h2 : B + 1 - B = 1 := by omega
  rw [h1, h2]
  rfl

/-- A fresh two-per-second registry (rate 2, burst 2, no extractor supplied),
used to instantiate the theorems on concrete inputs. -/
def sampleRegistry : RateLimiter :=
  { limiters := [], config := ⟨2, 2, none⟩ }

/-- `TryAcquire` when a token is available: success, one token consumed, the
last-refill timestamp moved to `now`. -/
theorem tryAcquire_of_le (l : Limiter) (now : ℚ) (h : 1 ≤ l.availableTokens now) :
    l.tryAcquire now = (true, { l with tokens := l.availableTokens now - 1, last := now }) := by
  simp [Limiter.tryAcquire, h]

/-- `TryAcquire` when no token is available: failure, state untouched. -/
theorem tryAcquire_of_lt (l : Limiter) (now : ℚ) (h : ¬ 1 ≤ l.availableTokens now) :
    l.tryAcquire now = (false, l) := by
  simp [Limiter.tryAcquire, h]

/-- C2: a drained limiter with rate `R > 0` and burst `B > 0` admits exactly
one call `1/R` seconds later (the next call at that instant is rejected), has
the full burst `B` available `B/R` seconds later, and its available tokens
never exceed `B` however long it idles. -/
theorem refill_bound (R : ℚ) (B : ℕ) (t s : ℚ) (hR : 0 < R) (hB : 0 < B) :
    ((⟨R, (B : ℤ), 0, t⟩ : Limiter).tryAcquire (t + 1 / R)).1 = true ∧
    (((⟨R, (B : ℤ), 0, t⟩ : Limiter).tryAcquire (t + 1 / R)).2.tryAcquire (t + 1 / R)).1 = false ∧
    (⟨R, (B : ℤ), 0, t⟩ : Limiter).availableTokens (t + (B : ℚ) / R) = (B : ℚ) ∧
    (⟨R, (B : ℤ), 0, t⟩ : Limiter).availableTokens (t + s) ≤ (B : ℚ) := by
  have hRne : R ≠ 0 := ne_of_gt hR
  have hB1 : (1 : ℚ) ≤ ((B : ℤ) : ℚ) := by exact_mod_cast hB
  have havail1 : (⟨R, (B : ℤ), 0, t⟩ : Limiter).availableTokens (t + 1 / R) = 1 := by
    unfold Limiter.availableTokens
    rw [add_sub_cancel_left, zero_add, div_mul_cancel₀ _ hRne]
    exact min_eq_right hB1
  have hstep1 : (⟨R, (B : ℤ), 0, t⟩ : Limiter).tryAcquire (t + 1 / R) =
      (true, ⟨R, (B : ℤ), (⟨R, (B : ℤ), 0, t⟩ : Limiter).availableTokens (t + 1 / R) - 1, t + 1 / R⟩) :=
    tryAcquire_of_le _ _ (le_of_eq havail1.symm)
  refine ⟨by rw [hstep1], ?_, ?_, ?_⟩
  · rw [hstep1]
    have havail2 : (⟨R, (B : ℤ), (⟨R, (B : ℤ), 0, t⟩ : Limiter).availableTokens (t + 1 / R) - 1,
        t + 1 / R⟩ : Limiter).availableTokens (t + 1 / R) = 0 := by
      rw [havail1]
      show min ((B : ℤ) : ℚ) (1 - 1 + (t + 1 / R - (t + 1 / R)) * R) = 0
      rw [sub_self, sub_self, zero_mul, add_zero]
      exact min_eq_right (by positivity)
    rw [tryAcquire_of_lt _ _ (by rw [havail2]; norm_num)]
  · unfold Limiter.availableTokens
    rw [add_sub_cancel_left, zero_add, div_mul_cancel₀ _ hRne]
    exact min_self _
  · unfold Limiter.availableTokens
    exact min_le_left _ _

/-- Witness for C2 at `R = 2`, `B = 2`, drained at time 0, idling 7 seconds. -/
theorem refill_bound_witness :
    ((⟨2, (2 : ℤ), 0, 0⟩ : Limiter).tryAcquire (0 + 1 / 2)).1 = true ∧
    (((⟨2, (2 : ℤ), 0, 0⟩ : Limiter).tryAcquire (0 + 1 / 2)).2.tryAcquire (0 + 1 / 2)).1 = false ∧
    (⟨2, (2 : ℤ), 0, 0⟩ : Limiter).availableTokens (0 + (2 : ℚ) / 2) = ((2 : ℕ) : ℚ) ∧
    (⟨2, (2 : ℤ), 0, 0⟩ : Limiter).availableTokens (0 + 7) ≤ ((2 : ℕ) : ℚ) :=
  refill_bound 2 2 0 7 (by norm_num) (by norm_num)

/-- Witness for C1 at `R = 2`, `B = 2`. -/
theorem capacity_bound_witness :
    acquireResults ((sampleRegistry.getLimiter "global" 0).1) 0 3 =
      List.replicate 2 true ++ [false] :=
  capacity_bound sampleRegistry "global" 0 2 rfl (by norm_num [sampleRegistry]) rfl (by norm_num)

/-- C7: `NewRateLimiter` replaces a non-positive `RequestsPerSecond` by 100
and a non-positive `BurstSize` by twice the (possibly already defaulted)
`RequestsPerSecond`; positive supplied values are kept unchanged. -/
theorem newRateLimiter_defaults (config : RateLimitConfig) :
    (NewRateLimiter config).config.RequestsPerSecond =
      (if config.RequestsPerSecond ≤ 0 then 100 else config.RequestsPerSecond) ∧
    (NewRateLimiter config).config.BurstSize =
      (if config.BurstSize ≤ 0 then
        (if config.RequestsPerSecond ≤ 0 then 100 else config.RequestsPerSecond) * 2
      else config.BurstSize) := by
  rcases config with ⟨rps, burst, ke⟩
  unfold NewRateLimiter
  cases ke <;> dsimp only [] <;> split_ifs <;> simp_all

/-- `NewRateLimiter` keeps a supplied key extractor and substitutes
`DefaultKeyExtractor` for a nil one. -/
theorem newRateLimiter_keyExtractor (config : RateLimitConfig) :
    (NewRateLimiter config).config.KeyExtractor =
      some (config.KeyExtractor.getD DefaultKeyExtractor) := by
  rcases config with ⟨rps, burst, ke⟩
  unfold NewRateLimiter
  cases ke <;> dsimp only [] <;> split_ifs <;> rfl

/-- C9: with rate limiting disabled, `NewRateLimitInterceptors` returns no
interceptor and the server chain of `main.go` contains no rate-limit
interceptor (it is exactly request-id, metrics, logging). -/
theorem disabled_passthrough (cfg : Config) (hEn : cfg.RateLimitEnabled = false) :
    NewRateLimitInterceptors cfg = [] ∧
    runGRPCServerInterceptors cfg =
      [Interceptor.requestID, Interceptor.metrics, Interceptor.logging] ∧
    (runGRPCServerInterceptors cfg).all (fun i => !i.isRateLimit) = true := by
  refine ⟨?_, ?_, ?_⟩
  · simp [NewRateLimitInterceptors, hEn]
  · simp [runGRPCServerInterceptors, hEn]
  · simp [runGRPCServerInterceptors, hEn, Interceptor.isRateLimit]

/-- Witness for C9 on a disabled configuration. -/
theorem disabled_passthrough_witness :
    NewRateLimitInterceptors ⟨false, 2, 2, "global"⟩ = [] ∧
    runGRPCServerInterceptors ⟨false, 2, 2, "global"⟩ =
      [Interceptor.requestID, Interceptor.metrics, Interceptor.logging] ∧
    (runGRPCServerInterceptors ⟨false, 2, 2, "global"⟩).all (fun i => !i.isRateLimit) = true :=
  disabled_passthrough ⟨false, 2, 2, "global"⟩ rfl

/-- C10: with rate limiting enabled and any strategy string other than
"per-method" (empty, misspelled, ...), both the middleware constructor and
the `main.go` wiring install the global-strategy interceptor, whose key
extractor sends every call to the constant key "global". -/
theorem unrecognized_strategy_global (cfg : Config) (info : CallInfo)
    (hEn : cfg.RateLimitEnabled = true) (hStrat : cfg.RateLimitStrategy ≠ "per-method") :
    NewRateLimitInterceptors cfg =
      [NewGlobalRateLimitInterceptor cfg.RateLimitRequestsPerSec cfg.RateLimitBurstSize] ∧
    (NewRateLimitInterceptors cfg).map (fun i => i.extractedKey info) = [some "global"] ∧
    (runGRPCServerInterceptors cfg).map (fun i => i.extractedKey info) =
      [none, none, some "global", none] := by
  have hkey : (NewGlobalRateLimitInterceptor cfg.RateLimitRequestsPerSec
      cfg.RateLimitBurstSize).extractedKey info = some "global" := by
    unfold NewGlobalRateLimitInterceptor Interceptor.extractedKey
    dsimp only []
    rw [newRateLimiter_keyExtractor]
    rfl
  have hlist : NewRateLimitInterceptors cfg =
      [NewGlobalRateLimitInterceptor cfg.RateLimitRequestsPerSec cfg.RateLimitBurstSize] := by
    simp [NewRateLimitInterceptors, hEn, hStrat]
  refine ⟨hlist, ?_, ?_⟩
  · rw [hlist]
    simp only [List.map_cons, List.map_nil]
    rw [hkey]
  · have h1 : runGRPCServerInterceptors cfg =
        [Interceptor.requestID, Interceptor.metrics,
         NewGlobalRateLimitInterceptor cfg.RateLimitRequestsPerSec cfg.RateLimitBurstSize,
         Interceptor.logging] := by
      simp [runGRPCServerInterceptors, hEn, hStrat]
    rw [h1]
    simp only [List.map_cons, List.map_nil]
    rw [hkey]
    rfl

/-- Witness for C10 on an enabled configuration with a misspelled strategy. -/
theorem unrecognized_strategy_global_witness :
    NewRateLimitInterceptors ⟨true, 5, 7, "per_method"⟩ =
      [NewGlobalRateLimitInterceptor 5 7] ∧
    (NewRateLimitInterceptors ⟨true, 5, 7, "per_method"⟩).map
      (fun i => i.extractedKey ⟨"/hello.HelloService/SayHello"⟩) = [some "global"] ∧
    (runGRPCServerInterceptors ⟨true, 5, 7, "per_method"⟩).map
      (fun i => i.extractedKey ⟨"/hello.HelloService/SayHello"⟩) =
      [none, none, some "global", none] :=
  unrecognized_strategy_global ⟨true, 5, 7, "per_method"⟩ ⟨"/hello.HelloService/SayHello"⟩
    rfl (by decide)

/-- `getLimiter` on a key already in the map returns the stored limiter, an
unchanged registry, and no construction. -/
theorem getLimiter_present (rl : RateLimiter) (k : String) (now : ℚ) (L : Limiter)
    (h : rl.limiters.lookup k = some L) : rl.getLimiter k now = (L, rl, false) := by
  unfold RateLimiter.getLimiter
  rw [h]

/-- `getLimiter` on an absent key constructs a limiter from the configured
rate and burst and stores it. -/
theorem getLimiter_fresh (rl : RateLimiter) (k : String) (now : ℚ)
    (h : rl.limiters.lookup k = none) :
    rl.getLimiter k now =
      (newLimiter (rl.config.RequestsPerSecond : ℚ) rl.config.BurstSize now,
       { rl with limiters :=
          (k, newLimiter (rl.config.RequestsPerSecond : ℚ) rl.config.BurstSize now) ::
            rl.limiters },
       true) := by
  unfold RateLimiter.getLimiter
  rw [h]

/-- After `getLimiter k`, the registry holds exactly the returned limiter
under `k`. -/
theorem lookup_getLimiter_self (rl : RateLimiter) (k : String) (now : ℚ) :
    (rl.getLimiter k now).2.1.limiters.lookup k = some (rl.getLimiter k now).1 := by
  cases h : rl.limiters.lookup k with
  | some l => rw [getLimiter_present rl k now l h, h]
  | none => rw [getLimiter_fresh rl k now h]; simp [List.lookup]

/-- `getLimiter` (for any key) never changes or drops an existing entry. -/
theorem lookup_getLimiter_preserved (rl : RateLimiter) (k k' : String) (now : ℚ)
    (L : Limiter) (h : rl.limiters.lookup k = some L) :
    (rl.getLimiter k' now).2.1.limiters.lookup k = some L := by
  unfold RateLimiter.getLimiter
  cases h' : rl.limiters.lookup k' with
  | some l => simpa [h'] using h
  | none =>
    have hne : k ≠ k' := by
      rintro rfl
      rw [h] at h'
      exact Option.noConfusion h'
    have hbeq : (k == k') = false := beq_eq_false_iff_ne.mpr hne
    simp [h', List.lookup, hbeq, h]

/-- A key already present stays present through any sequence of `getLimiter`
calls, and no call in the sequence constructs a limiter for it. -/
theorem runGetLimiters_present (ks : List String) : ∀ (rl : RateLimiter) (now : ℚ)
    (k : String) (L : Limiter), rl.limiters.lookup k = some L →
    (runGetLimiters rl now ks).1.limiters.lookup k = some L ∧
    creationCount k (runGetLimiters rl now ks).2 = 0 := by
  induction ks with
  | nil =>
    intro rl now k L h
    exact ⟨h, rfl⟩
  | cons k' ks ih =>
    intro rl now k L h
    have hpres : (rl.getLimiter k' now).2.1.limiters.lookup k = some L :=
      lookup_getLimiter_preserved rl k k' now L h
    have hrest := ih (rl.getLimiter k' now).2.1 now k L hpres
    refine ⟨hrest.1, ?_⟩
    unfold runGetLimiters creationCount
    by_cases hk : k' = k
    · subst hk
      have hcreated : (rl.getLimiter k' now).2.2 = false := by
        unfold RateLimiter.getLimiter
        rw [h]
      simp only [List.filter, hcreated, Bool.and_false]
      exact hrest.2
    · simp only [List.filter]
      have : (k' == k) = false := beq_eq_false_iff_ne.mpr hk
      rw [this]
      simp only [Bool.false_and]
      exact hrest.2

/-- Over any sequence of `getLimiter` calls, at most one limiter is ever
constructed for a given key. -/
theorem creationCount_le_one (ks : List String) : ∀ (rl : RateLimiter) (now : ℚ)
    (k : String), creationCount k (runGetLimiters rl now ks).2 ≤ 1 := by
  induction ks with
  | nil =>
    intro rl now k
    exact Nat.zero_le 1
  | cons k' ks ih =>
    intro rl now k
    unfold runGetLimiters creationCount
    by_cases hk : k' = k
    · subst hk
      have hafter : (rl.getLimiter k' now).2.1.limiters.lookup k' =
          some (rl.getLimiter k' now).1 := lookup_getLimiter_self rl k' now
      have hrest := (runGetLimiters_present ks (rl.getLimiter k' now).2.1 now k'
        (rl.getLimiter k' now).1 hafter).2
      unfold creationCount at hrest
      simp only [List.filter]
      cases hcr : (rl.getLimiter k' now).2.2 with
      | false =>
        rw [beq_self_eq_true]
        simp only [Bool.true_and]
        rw [hrest]
        exact Nat.zero_le 1
      | true =>
        rw [beq_self_eq_true]
        simp only [Bool.true_and, List.length_cons]
        rw [hrest]
    · simp only [List.filter]
      have hbeq : (k' == k) = false := beq_eq_false_iff_ne.mpr hk
      rw [hbeq]
      simp only [Bool.false_and]
      exact ih (rl.getLimiter k' now).2.1 now k

/-- C3: the first `getLimiter(k)` on a registry not yet holding `k`
constructs a limiter from the configured rate and burst and stores it; that
stored entry survives any later sequence of `getLimiter` calls unchanged;
every subsequent `getLimiter(k)` returns exactly the stored limiter without
constructing another; and over any call sequence at most one limiter is
ever constructed for a key. -/
theorem registry_idempotent (rl : RateLimiter) (k : String) (now now2 now3 : ℚ)
    (ks ks2 : List String) (hfresh : rl.limiters.lookup k = none) :
    rl.getLimiter k now =
      (newLimiter (rl.config.RequestsPerSecond : ℚ) rl.config.BurstSize now,
       { rl with limiters :=
          (k, newLimiter (rl.config.RequestsPerSecond : ℚ) rl.config.BurstSize now) ::
            rl.limiters },
       true) ∧
    (runGetLimiters (rl.getLimiter k now).2.1 now2 ks).1.limiters.lookup k =
      some (rl.getLimiter k now).1 ∧
    (runGetLimiters (rl.getLimiter k now).2.1 now2 ks).1.getLimiter k now3 =
      ((rl.getLimiter k now).1, (runGetLimiters (rl.getLimiter k now).2.1 now2 ks).1, false) ∧
    creationCount k (runGetLimiters rl now2 ks2).2 ≤ 1 := by
  have hpers := (runGetLimiters_present ks (rl.getLimiter k now).2.1 now2 k
    (rl.getLimiter k now).1 (lookup_getLimiter_self rl k now)).1
  exact ⟨getLimiter_fresh rl k now hfresh, hpers,
    getLimiter_present _ k now3 _ hpers, creationCount_le_one ks2 rl now2 k⟩

/-- Witness for C3: fresh key "a" in the sample registry, followed by the
call sequences ["a", "b"] and ["a", "a", "b"]. -/
theorem registry_idempotent_witness :
    sampleRegistry.getLimiter "a" 0 =
      (newLimiter (sampleRegistry.config.RequestsPerSecond : ℚ)
        sampleRegistry.config.BurstSize 0,
       { sampleRegistry with limiters :=
          ("a", newLimiter (sampleRegistry.config.RequestsPerSecond : ℚ)
            sampleRegistry.config.BurstSize 0) :: sampleRegistry.limiters },
       true) ∧
    (runGetLimiters (sampleRegistry.getLimiter "a" 0).2.1 1 ["a", "b"]).1.limiters.lookup "a" =
      some (sampleRegistry.getLimiter "a" 0).1 ∧
    (runGetLimiters (sampleRegistry.getLimiter "a" 0).2.1 1 ["a", "b"]).1.getLimiter "a" 2 =
      ((sampleRegistry.getLimiter "a" 0).1,
       (runGetLimiters (sampleRegistry.getLimiter "a" 0).2.1 1 ["a", "b"]).1, false) ∧
    creationCount "a" (runGetLimiters sampleRegistry 1 ["a", "a", "b"]).2 ≤ 1 :=
  registry_idempotent sampleRegistry "a" 0 1 2 ["a", "b"] ["a", "a", "b"] rfl

/-- `TryAcquire` succeeds exactly when at least one token is available. -/
theorem tryAcquire_fst_iff (l : Limiter) (now : ℚ) :
    (l.tryAcquire now).1 = true ↔ 1 ≤ l.availableTokens now := by
  unfold Limiter.tryAcquire
  dsimp only
  split_ifs with h <;> simp [h]

/-- Updating the entry for one key does not change the entry for any other. -/
theorem lookup_updateLimiter_ne (m : List (String × Limiter)) (a b : String)
    (l : Limiter) (h : b ≠ a) : (updateLimiter m a l).lookup b = m.lookup b := by
  induction m with
  | nil => rfl
  | cons kv rest ih =>
    obtain ⟨k, v⟩ := kv
    unfold updateLimiter
    by_cases hk : k = a
    · subst hk
      rw [if_pos rfl]
      have hbk : (b == k) = false := beq_eq_false_iff_ne.mpr h
      simp [List.lookup, hbk]
    · rw [if_neg hk]
      by_cases hbk : b = k
      · subst hbk
        simp [List.lookup]
      · have : (b == k) = false := beq_eq_false_iff_ne.mpr hbk
        simp [List.lookup, this, ih]

/-- Updating a present key stores exactly the new limiter. -/
theorem lookup_updateLimiter_self (m : List (String × Limiter)) (key : String)
    (l L : Limiter) (h : m.lookup key = some L) :
    (updateLimiter m key l).lookup key = some l := by
  induction m with
  | nil => simp [List.lookup] at h
  | cons kv rest ih =>
    obtain ⟨k, v⟩ := kv
    unfold updateLimiter
    by_cases hk : k = key
    · subst hk
      rw [if_pos rfl]
      simp [List.lookup]
    · have hbk : (key == k) = false := beq_eq_false_iff_ne.mpr (Ne.symm hk)
      rw [if_neg hk]
      simp only [List.lookup, hbk] at h ⊢
      exact ih h

/-- `getLimiter` for one key does not change the entry for any other key. -/
theorem lookup_getLimiter_frame (rl : RateLimiter) (a b : String) (now : ℚ)
    (h : b ≠ a) : (rl.getLimiter a now).2.1.limiters.lookup b = rl.limiters.lookup b := by
  cases hl : rl.limiters.lookup a with
  | some l => rw [getLimiter_present rl a now l hl]
  | none =>
    rw [getLimiter_fresh rl a now hl]
    have : (b == a) = false := beq_eq_false_iff_ne.mpr h
    simp [List.lookup, this]

/-- The interceptor run written out for the admitted branch. -/
theorem interceptor_eq_admitted {α ε : Type} (rl : RateLimiter) (now : ℚ)
    (info : CallInfo) (h : Option α × Option ε)
    (hok : 1 ≤ (rl.getLimiter (rl.extractKey info) now).1.availableTokens now) :
    RateLimitInterceptor rl now info h =
      { decision := .forwarded h.1 h.2,
        handlerInvoked := true,
        metricEvents := [],
        state :=
          { (rl.getLimiter (rl.extractKey info) now).2.1 with
            limiters := updateLimiter
              (rl.getLimiter (rl.extractKey info) now).2.1.limiters
              (rl.extractKey info)
              ((rl.getLimiter (rl.extractKey info) now).1.consumeOne now) } } := by
  unfold RateLimitInterceptor
  dsimp only
  rw [tryAcquire_of_le _ _ hok]
  simp [Limiter.consumeOne]

/-- The interceptor run written out for the rejected branch. -/
theorem interceptor_eq_rejected {α ε : Type} (rl : RateLimiter) (now : ℚ)
    (info : CallInfo) (h : Option α × Option ε)
    (hno : ¬ 1 ≤ (rl.getLimiter (rl.extractKey info) now).1.availableTokens now) :
    RateLimitInterceptor rl now info h =
      { decision := .rejected (resourceExhaustedWithMessage
          (rateLimitExceededMessage rl.config.RequestsPerSecond)),
        handlerInvoked := false,
        metricEvents := [(info.fullMethod, rl.extractKey info)],
        state := (rl.getLimiter (rl.extractKey info) now).2.1 } := by
  unfold RateLimitInterceptor
  dsimp only
  rw [tryAcquire_of_lt _ _ hno]
  simp

/-- C6: an interceptor call routed to key `a = extractKey info` leaves the
limiter entry of every other key `b` untouched; the global extractor maps
every call to the single key "global"; the per-method extractor maps each
call to its full method name (distinct methods, distinct keys). -/
theorem key_isolation {α ε : Type} (rl : RateLimiter) (now : ℚ) (info i2 : CallInfo)
    (h : Option α × Option ε) (b : String) (hb : b ≠ rl.extractKey info) :
    (RateLimitInterceptor rl now info h).state.limiters.lookup b =
      rl.limiters.lookup b ∧
    DefaultKeyExtractor info = "global" ∧
    MethodKeyExtractor i2 = i2.fullMethod := by
  refine ⟨?_, rfl, rfl⟩
  by_cases hro : 1 ≤ (rl.getLimiter (rl.extractKey info) now).1.availableTokens now
  · rw [interceptor_eq_admitted rl now info h hro]
    dsimp only
    rw [lookup_updateLimiter_ne _ _ _ _ hb]
    exact lookup_getLimiter_frame rl _ b now hb
  · rw [interceptor_eq_rejected rl now info h hro]
    exact lookup_getLimiter_frame rl _ b now hb

/-- Witness for C6: a call on the sample registry (key "global") does not
touch the entry for key "other". -/
theorem key_isolation_witness :
    (RateLimitInterceptor sampleRegistry 0 ⟨"/hello.HelloService/SayHello"⟩
      ((some 1 : Option ℕ), (none : Option Unit))).state.limiters.lookup "other" =
      sampleRegistry.limiters.lookup "other" ∧
    DefaultKeyExtractor ⟨"/hello.HelloService/SayHello"⟩ = "global" ∧
    MethodKeyExtractor ⟨"/user.UserService/GetUser"⟩ = "/user.UserService/GetUser" :=
  key_isolation sampleRegistry 0 ⟨"/hello.HelloService/SayHello"⟩
    ⟨"/user.UserService/GetUser"⟩ (some 1, none) "other" (by decide)

/-- C8: when `TryAcquire` on the call's limiter succeeds, the interceptor
returns exactly the downstream handler's response and error, unmodified. -/
theorem admitted_passthrough {α ε : Type} (rl : RateLimiter) (now : ℚ)
    (info : CallInfo) (h : Option α × Option ε)
    (hok : ((rl.getLimiter (rl.extractKey info) now).1.tryAcquire now).1 = true) :
    (RateLimitInterceptor rl now info h).decision =
      InterceptDecision.forwarded h.1 h.2 := by
  rw [interceptor_eq_admitted rl now info h ((tryAcquire_fst_iff _ _).mp hok)]

/-- Witness for C8: an admitted call on the fresh sample registry forwards
the handler's pair (response 1, gRPC error "boom") verbatim. -/
theorem admitted_passthrough_witness :
    (RateLimitInterceptor sampleRegistry 0 ⟨"/hello.HelloService/SayHello"⟩
      ((some 1 : Option ℕ), (some "boom" : Option String))).decision =
      InterceptDecision.forwarded (some 1) (some "boom") :=
  admitted_passthrough sampleRegistry 0 ⟨"/hello.HelloService/SayHello"⟩
    (some 1, some "boom")
    (by rw [tryAcquire_fst_iff]
        norm_num [sampleRegistry, RateLimiter.extractKey, RateLimiter.getLimiter,
          List.lookup, newLimiter, Limiter.availableTokens])

/-- C4: the registry entry for the call's key after the interceptor run is
the pre-`TryAcquire` limiter itself when the call is rejected (no token
consumed, timestamp untouched), and the limiter with one token consumed and
the last-refill timestamp set to `now` when the call is admitted; consuming
leaves exactly one token less available at that instant. -/
theorem no_partial_side_effects {α ε : Type} (rl : RateLimiter) (now : ℚ)
    (info : CallInfo) (h : Option α × Option ε) :
    (RateLimitInterceptor rl now info h).state.limiters.lookup (rl.extractKey info) =
      some (if ((rl.getLimiter (rl.extractKey info) now).1.tryAcquire now).1 then
          (rl.getLimiter (rl.extractKey info) now).1.consumeOne now
        else
          (rl.getLimiter (rl.extractKey info) now).1) ∧
    (RateLimitInterceptor rl now info h).handlerInvoked =
      ((rl.getLimiter (rl.extractKey info) now).1.tryAcquire now).1 ∧
    ((rl.getLimiter (rl.extractKey info) now).1.consumeOne now).availableTokens now =
      (rl.getLimiter (rl.extractKey info) now).1.availableTokens now - 1 ∧
    ((rl.getLimiter (rl.extractKey info) now).1.consumeOne now).last = now := by
  have hself := lookup_getLimiter_self rl (rl.extractKey info) now
  have havail : ((rl.getLimiter (rl.extractKey info) now).1.consumeOne now).availableTokens now =
      (rl.getLimiter (rl.extractKey info) now).1.availableTokens now - 1 := by
    unfold Limiter.consumeOne Limiter.availableTokens
    dsimp only
    rw [sub_self, zero_mul, add_zero]
    refine min_eq_right ?_
    have hmin : min ((rl.getLimiter (rl.extractKey info) now).1.burst : ℚ)
        ((rl.getLimiter (rl.extractKey info) now).1.tokens +
          (now - (rl.getLimiter (rl.extractKey info) now).1.last) *
            (rl.getLimiter (rl.extractKey info) now).1.limit) ≤
        ((rl.getLimiter (rl.extractKey info) now).1.burst : ℚ) := min_le_left _ _
    linarith
  by_cases hro : 1 ≤ (rl.getLimiter (rl.extractKey info) now).1.availableTokens now
  · have htrue := (tryAcquire_fst_iff (rl.getLimiter (rl.extractKey info) now).1 now).mpr hro
    rw [interceptor_eq_admitted rl now info h hro, htrue]
    refine ⟨?_, rfl, havail, rfl⟩
    dsimp only
    rw [if_pos rfl]
    exact lookup_updateLimiter_self _ _ _ _ hself
  · have hfalse : ((rl.getLimiter (rl.extractKey info) now).1.tryAcquire now).1 = false := by
      cases hx : ((rl.getLimiter (rl.extractKey info) now).1.tryAcquire now).1 with
      | false => rfl
      | true => exact absurd ((tryAcquire_fst_iff _ _).mp hx) hro
    rw [interceptor_eq_rejected rl now info h hro, hfalse]
    refine ⟨?_, rfl, havail, rfl⟩
    dsimp only
    rw [if_neg (by simp)]
    exact hself

/-- A registry whose "global" limiter is fully drained at time 0 (rate 2,
burst 2, no tokens), used for the rejection-path instances. -/
def drainedRegistry : RateLimiter :=
  { limiters := [("global", ⟨2, 2, 0, 0⟩)], config := ⟨2, 2, none⟩ }

/-- The drained sample registry has no token available at time 0. -/
theorem drainedRegistry_noToken :
    ¬ 1 ≤ (drainedRegistry.getLimiter
      (drainedRegistry.extractKey ⟨"/hello.HelloService/SayHello"⟩) 0).1.availableTokens 0 := by
  norm_num [drainedRegistry, RateLimiter.extractKey, RateLimiter.getLimiter,
    List.lookup, DefaultKeyExtractor, Limiter.availableTokens]

/-- C5 as written is false: at the concrete drained registry (configured
rate 2) the rejection error message is the base message "resource exhausted"
followed by ": " and the claimed text, not the claimed text alone
(`CodeErr.WithMessage` prefixes the base message). -/
theorem rejected_message_counterexample :
    (RateLimitInterceptor drainedRegistry 0 ⟨"/hello.HelloService/SayHello"⟩
      ((some 1 : Option ℕ), (none : Option Unit))).decision =
      InterceptDecision.rejected
        ⟨"ERR429P08", 429, "ResourceExhausted",
          "resource exhausted: Rate limit exceeded. Maximum 2 requests per second allowed."⟩ ∧
    "resource exhausted: Rate limit exceeded. Maximum 2 requests per second allowed." ≠
      "Rate limit exceeded. Maximum 2 requests per second allowed." := by
  constructor
  · rw [interceptor_eq_rejected drainedRegistry 0 ⟨"/hello.HelloService/SayHello"⟩
      (some 1, none) drainedRegistry_noToken]
    rfl
  · decide

/-- C5 (amended): on rejection the handler is not invoked, the
rate-limit-exceeded counter is incremented exactly once labelled with the
method and the key, and the error is the resource-exhausted entity
(code "ERR429P08", HTTP 429, gRPC ResourceExhausted) whose message is
"resource exhausted: Rate limit exceeded. Maximum <N> requests per second
allowed." for the configured (post-default) requests-per-second `N`. -/
theorem rejected_behaviour {α ε : Type} (rl : RateLimiter) (now : ℚ)
    (info : CallInfo) (h : Option α × Option ε)
    (hno : ¬ 1 ≤ (rl.getLimiter (rl.extractKey info) now).1.availableTokens now) :
    (RateLimitInterceptor rl now info h).handlerInvoked = false ∧
    (RateLimitInterceptor rl now info h).metricEvents =
      [(info.fullMethod, rl.extractKey info)] ∧
    (RateLimitInterceptor rl now info h).decision =
      InterceptDecision.rejected
        { Code := "ERR429P08", Status := 429, GrpcCode := "ResourceExhausted",
          Message := "resource exhausted: " ++
            rateLimitExceededMessage rl.config.RequestsPerSecond } := by
  rw [interceptor_eq_rejected rl now info h hno]
  exact ⟨rfl, rfl, rfl⟩

/-- Witness for the amended C5 on the drained registry. -/
theorem rejected_behaviour_witness :
    (RateLimitInterceptor drainedRegistry 0 ⟨"/hello.HelloService/SayHello"⟩
      ((some 1 : Option ℕ), (none : Option Unit))).handlerInvoked = false ∧
    (RateLimitInterceptor drainedRegistry 0 ⟨"/hello.HelloService/SayHello"⟩
      ((some 1 : Option ℕ), (none : Option Unit))).metricEvents =
      [("/hello.HelloService/SayHello",
        drainedRegistry.extractKey ⟨"/hello.HelloService/SayHello"⟩)] ∧
    (RateLimitInterceptor drainedRegistry 0 ⟨"/hello.HelloService/SayHello"⟩
      ((some 1 : Option ℕ), (none : Option Unit))).decision =
      InterceptDecision.rejected
        { Code := "ERR429P08", Status := 429, GrpcCode := "ResourceExhausted",
          Message := "resource exhausted: " ++
            rateLimitExceededMessage drainedRegistry.config.RequestsPerSecond } :=
  rejected_behaviour drainedRegistry 0 ⟨"/hello.HelloService/SayHello"⟩
    (some 1, none) drainedRegistry_noToken

end Theorems

end ProtobufFramework
